import Mathlib

/-!
Verification of the build-and-deploy pipeline of `gulpfile.js`
(polymer-starter-kit-plus).

The gulpfile registers named tasks and composes them into pipelines with
`runSequence`: each argument of `runSequence` is a step, a step being either
a single task name or an array of task names that run concurrently.  The
step lists below are transcribed literally from the source; the scheduler
semantics (steps run strictly in declared order, a step starts only after
the previous step is fully drained, the pipeline aborts at the first step
containing a failed task) is modelled from the specification, since the
`run-sequence` module itself is not part of the repository sources.

The `cache-config` gulp task (lines 182-204 of the source) is embedded
directly: the glob result is an explicit parameter, the three fixed
precache entries are appended, the manifest is fingerprinted with MD5 over
the `JSON.stringify` serialization of the precache list (the MD5 compression
function and the JSON string serializer are implemented here bit-for-bit),
and the manifest is serialized and written to `dist/cache-config.json`.
-/

namespace PSK

/-! ## Definitions -/

/-- One step of a pipeline: a single task, or a set of tasks that run
concurrently (an array argument of `runSequence`). -/
inductive Step where
  | single (t : String)
  | par (ts : List String)
deriving DecidableEq, Repr

/-- The task names contained in a step. -/
def Step.tasks : Step → List String
  | .single t => [t]
  | .par ts => ts

/-- A pipeline definition: the ordered list of steps handed to the
scheduler. -/
abbrev Pipeline := List Step

/-- The step list of the `default` task (gulpfile.js lines 292-301):
`runSequence(['copy','styles'], 'elements', ['jshint','images','fonts',
'html','fetch-newest-analytics'], 'vulcanize', ['clean-dist','minify-dist'],
'cache-config', cb)`. -/
def defaultSeq : Pipeline :=
  [ .par ["copy", "styles"],
    .single "elements",
    .par ["jshint", "images", "fonts", "html", "fetch-newest-analytics"],
    .single "vulcanize",
    .par ["clean-dist", "minify-dist"],
    .single "cache-config" ]

/-- The full default pipeline: the gulp task `default` is declared with the
dependency list `['clean']` (line 292), so `clean` runs to completion before
the step list of `defaultSeq` starts. -/
def defaultPipeline : Pipeline := .single "clean" :: defaultSeq

/-- The `pre-deploy` task (gulpfile.js lines 307-313) is
`runSequence('default', 'fix-path-sw-toolbox', 'revision', cb)`; running the
nested `default` pipeline is modelled by sequential composition of its
steps. -/
def preDeployPipeline : Pipeline :=
  defaultPipeline ++ [.single "fix-path-sw-toolbox", .single "revision"]

/-- Dependency lists declared in `gulp.task(name, deps, fn)` registrations
of the gulpfile.  In gulp, the tasks of the dependency list complete before
the task body runs. -/
def gulpDeps : String → List String
  | "default" => ["clean"]
  | "serve" => ["styles", "elements", "images"]
  | "serve:dist" => ["default"]
  | "serve:gae" => ["default"]
  | "deploy:dev" => ["pre-deploy"]
  | "deploy:stag" => ["pre-deploy"]
  | "deploy:prod" => ["pre-deploy"]
  | _ => []

/-! ### Timing model of the scheduler

Modelled from the spec: `run-sequence` (the scheduler implementation) is
not under the repository sources; the spec states that all tasks of step
`i` complete before step `i+1` begins, and that tasks listed together in
one step run concurrently.  Each task is given an arbitrary duration; a
step lasts as long as its longest task; every task of a step starts when
the step starts. -/

/-- Duration of a step: the maximum duration among its tasks. -/
def stepDuration (dur : String → Nat) (s : Step) : Nat :=
  (s.tasks.map dur).foldr Nat.max 0

/-- Start time of step `i` of pipeline `p`: the sum of the durations of all
earlier steps (step `i` begins only when step `i-1` is fully drained). -/
def stepStart (dur : String → Nat) : Pipeline → Nat → Nat
  | _, 0 => 0
  | [], _ + 1 => 0
  | s :: p, i + 1 => stepDuration dur s + stepStart dur p i

/-- Start time of a task scheduled in step `i`. -/
def taskStart (dur : String → Nat) (p : Pipeline) (i : Nat) : Nat :=
  stepStart dur p i

/-- Completion time of task `t` scheduled in step `i`. -/
def taskEnd (dur : String → Nat) (p : Pipeline) (i : Nat) (t : String) : Nat :=
  stepStart dur p i + dur t

/-! ### Result model of the scheduler

Modelled from the spec: given the success/failure outcome of every task,
the scheduler visits the steps in order; all tasks of a step execute
(concurrently), and if any of them fails the pipeline moves to a `failed`
state naming the step index and the first failing task in declaration
order, and no later step executes. -/

/-- Terminal state of a pipeline run. -/
inductive RunStatus where
  | completed
  | failed (stepIdx : Nat) (task : String)
deriving DecidableEq, Repr

/-- A pipeline run outcome: terminal status plus the list of executed
tasks, each tagged with the index of the step that ran it. -/
structure RunResult where
  status : RunStatus
  executed : List (Nat × String)
deriving DecidableEq, Repr

/-- First task of a list that fails under `ok` (declaration order). -/
def firstFailing (ok : String → Bool) : List String → Option String
  | [] => none
  | t :: ts => if ok t then firstFailing ok ts else some t

/-- Run the steps of a pipeline starting at absolute step index `k`. -/
def runFrom (ok : String → Bool) : Nat → Pipeline → RunResult
  | _, [] => ⟨.completed, []⟩
  | k, s :: p =>
    match firstFailing ok s.tasks with
    | some t => ⟨.failed k t, s.tasks.map (fun u => (k, u))⟩
    | none =>
      let r := runFrom ok (k + 1) p
      ⟨r.status, s.tasks.map (fun u => (k, u)) ++ r.executed⟩

/-- Run a whole pipeline. -/
def runPipeline (ok : String → Bool) (p : Pipeline) : RunResult :=
  runFrom ok 0 p

/-- The step at index `i` of a pipeline (an empty concurrent step past the
end). -/
def stepAt (p : Pipeline) (i : Nat) : Step :=
  p.getD i (.par [])

/-- All executed tasks of a pipeline starting at step index `k`, tagged
with their step indices, in scheduling order. -/
def stepTasksFrom (k : Nat) : Pipeline → List (Nat × String)
  | [] => []
  | s :: p => s.tasks.map (fun u => (k, u)) ++ stepTasksFrom (k + 1) p

/-! ### Deploy model -/

/-- An observable event of a deploy invocation: a pipeline task ran (tagged
with its step index), or the environment-specific publish procedure ran. -/
inductive DeployEvent where
  | task (stepIdx : Nat) (name : String)
  | publish (env : String)
deriving DecidableEq, Repr

/-- The real deploy environments, as wired in gulpfile.js lines 316-325:
`deploy:dev` publishes to development, `deploy:stag` to staging,
`deploy:prod` to production. -/
def deployEnvs : List String := ["development", "staging", "production"]

/-- Modelled from the spec: the deploy runner (`gulp-tasks/deploy`, a
repository file not under `src/`) publishes the artifact tree to the given
real environment.  The gulp declarations for `deploy:dev`, `deploy:stag`
and `deploy:prod` each carry the dependency list `['pre-deploy']`, so gulp
runs the `pre-deploy` pipeline first and starts the publish procedure only
if that pipeline completed successfully. -/
def deployRun (ok : String → Bool) (env : String) : List DeployEvent × Bool :=
  let r := runPipeline ok preDeployPipeline
  match r.status with
  | .completed => (r.executed.map (fun q => .task q.1 q.2) ++ [.publish env], true)
  | .failed _ _ => (r.executed.map (fun q => .task q.1 q.2), false)

/-- Published state per environment: the artifact tree (abstracted to a
string) most recently published there, if any. -/
structure PubState where
  development : Option String
  staging : Option String
  production : Option String
deriving DecidableEq, Repr

/-- Outcome of a promote invocation. -/
structure PromoteResult where
  trace : List DeployEvent
  state : PubState
  success : Bool
deriving DecidableEq, Repr

/-- Modelled from the spec: the `promote` branch of the deploy runner
(`gulp-tasks/deploy`, a repository file not under `src/`) copies staging's
already-published state to production without touching the artifact tree;
the gulp declaration `deploy:promote` (gulpfile.js lines 328-329) has no
dependency list, so no build pipeline runs before it. -/
def promoteRun (s : PubState) : PromoteResult :=
  ⟨[.publish "promote"], { s with production := s.staging }, true⟩

/-! ### MD5 (as used by `crypto.createHash('md5')` in the `cache-config`
task), over byte lists, all arithmetic on `Nat` modulo `2^32`. -/

/-- `2^32`. -/
def M32 : Nat := 4294967296

/-- Addition modulo `2^32`. -/
def add32 (x y : Nat) : Nat := (x + y) % M32

/-- Bitwise complement on 32-bit words. -/
def not32 (x : Nat) : Nat := x ^^^ 4294967295

/-- Left rotation of a 32-bit word. -/
def rotl32 (x n : Nat) : Nat := ((x <<< n) ||| (x >>> (32 - n))) % M32

/-- The 64 MD5 round constants `K[i] = floor(abs(sin(i+1)) * 2^32)`. -/
def mdK : List Nat :=
  [0xd76aa478, 0xe8c7b756, 0x242070db, 0xc1bdceee,
   0xf57c0faf, 0x4787c62a, 0xa8304613, 0xfd469501,
   0x698098d8, 0x8b44f7af, 0xffff5bb1, 0x895cd7be,
   0x6b901122, 0xfd987193, 0xa679438e, 0x49b40821,
   0xf61e2562, 0xc040b340, 0x265e5a51, 0xe9b6c7aa,
   0xd62f105d, 0x02441453, 0xd8a1e681, 0xe7d3fbc8,
   0x21e1cde6, 0xc33707d6, 0xf4d50d87, 0x455a14ed,
   0xa9e3e905, 0xfcefa3f8, 0x676f02d9, 0x8d2a4c8a,
   0xfffa3942, 0x8771f681, 0x6d9d6122, 0xfde5380c,
   0xa4beea44, 0x4bdecfa9, 0xf6bb4b60, 0xbebfbc70,
   0x289b7ec6, 0xeaa127fa, 0xd4ef3085, 0x04881d05,
   0xd9d4d039, 0xe6db99e5, 0x1fa27cf8, 0xc4ac5665,
   0xf4292244, 0x432aff97, 0xab9423a7, 0xfc93a039,
   0x655b59c3, 0x8f0ccc92, 0xffeff47d, 0x85845dd1,
   0x6fa87e4f, 0xfe2ce6e0, 0xa3014314, 0x4e0811a1,
   0xf7537e82, 0xbd3af235, 0x2ad7d2bb, 0xeb86d391]

/-- The 64 MD5 per-round left-rotation amounts. -/
def mdS : List Nat :=
  [7, 12, 17, 22, 7, 12, 17, 22, 7, 12, 17, 22, 7, 12, 17, 22,
   5, 9, 14, 20, 5, 9, 14, 20, 5, 9, 14, 20, 5, 9, 14, 20,
   4, 11, 16, 23, 4, 11, 16, 23, 4, 11, 16, 23, 4, 11, 16, 23,
   6, 10, 15, 21, 6, 10, 15, 21, 6, 10, 15, 21, 6, 10, 15, 21]

/-- The four 32-bit MD5 chaining registers. -/
structure Md5State where
  a : Nat
  b : Nat
  c : Nat
  d : Nat
deriving DecidableEq, Repr

/-- Little-endian 32-bit word `g` of a 64-byte chunk. -/
def wordAt (chunk : List Nat) (g : Nat) : Nat :=
  chunk.getD (4 * g) 0 + 256 * chunk.getD (4 * g + 1) 0 +
    65536 * chunk.getD (4 * g + 2) 0 + 16777216 * chunk.getD (4 * g + 3) 0

/-- One of the 64 MD5 rounds. -/
def md5Round (chunk : List Nat) (st : Md5State) (i : Nat) : Md5State :=
  let fg : Nat × Nat :=
    if i < 16 then ((st.b &&& st.c) ||| (not32 st.b &&& st.d), i)
    else if i < 32 then ((st.d &&& st.b) ||| (not32 st.d &&& st.c), (5 * i + 1) % 16)
    else if i < 48 then (st.b ^^^ st.c ^^^ st.d, (3 * i + 5) % 16)
    else (st.c ^^^ (st.b ||| not32 st.d), (7 * i) % 16)
  let tmp := add32 (add32 (add32 fg.1 st.a) (mdK.getD i 0)) (wordAt chunk fg.2)
  ⟨st.d, add32 st.b (rotl32 tmp (mdS.getD i 0)), st.b, st.c⟩

/-- MD5 compression of one 64-byte chunk. -/
def processChunk (st : Md5State) (chunk : List Nat) : Md5State :=
  let r := (List.range 64).foldl (md5Round chunk) st
  ⟨add32 st.a r.a, add32 st.b r.b, add32 st.c r.c, add32 st.d r.d⟩

/-- MD5 padding: a `0x80` byte, zeros to 56 mod 64, then the bit length as
a 64-bit little-endian integer. -/
def padMsg (msg : List Nat) : List Nat :=
  let len := msg.length
  let z := (120 - (len + 1) % 64) % 64
  let bitLen := 8 * len
  msg ++ 128 :: (List.replicate z 0 ++ (List.range 8).map (fun i => bitLen / 256 ^ i % 256))

/-- Split into 64-byte chunks (fuel-indexed; the fuel is the list length,
which bounds the number of chunks). -/
def chunks64Go : Nat → List Nat → List (List Nat)
  | 0, _ => []
  | f + 1, l => if l.isEmpty then [] else l.take 64 :: chunks64Go f (l.drop 64)

/-- Split a byte list into 64-byte chunks. -/
def chunks64 (l : List Nat) : List (List Nat) := chunks64Go l.length l

/-- The MD5 initial chaining value. -/
def md5init : Md5State := ⟨0x67452301, 0xefcdab89, 0x98badcfe, 0x10325476⟩

/-- Run MD5 over a byte list. -/
def md5run (msg : List Nat) : Md5State :=
  (chunks64 (padMsg msg)).foldl processChunk md5init

/-- The four little-endian bytes of a 32-bit word. -/
def wordBytesLE (w : Nat) : List Nat :=
  [w % 256, w / 256 % 256, w / 65536 % 256, w / 16777216 % 256]

/-- The 16 digest bytes of MD5. -/
def md5bytes (msg : List Nat) : List Nat :=
  let st := md5run msg
  wordBytesLE st.a ++ wordBytesLE st.b ++ wordBytesLE st.c ++ wordBytesLE st.d

/-- The sixteen lowercase hexadecimal digits. -/
def hexCharList : List Char := "0123456789abcdef".data

/-- The `n`-th lowercase hexadecimal digit. -/
def hexChar (n : Nat) : Char := hexCharList.getD n 'x'

/-- The two hex characters of one byte. -/
def byteHexChars (b : Nat) : List Char := [hexChar (b / 16 % 16), hexChar (b % 16)]

/-- Hex encoding of a byte list (`.digest('hex')`). -/
def md5hex (bs : List Nat) : String := ⟨(bs.map byteHexChars).flatten⟩

/-- UTF-8 encoding of one character. -/
def utf8Bytes (c : Char) : List Nat :=
  let n := c.toNat
  if n < 128 then [n]
  else if n < 2048 then [192 + n / 64, 128 + n % 64]
  else if n < 65536 then [224 + n / 4096, 128 + n / 64 % 64, 128 + n % 64]
  else [240 + n / 262144, 128 + n / 4096 % 64, 128 + n / 64 % 64, 128 + n % 64]

/-- UTF-8 bytes of a string (what `md5.update(string)` consumes). -/
def strBytes (s : String) : List Nat := (s.data.map utf8Bytes).flatten

/-- The lowercase-hex MD5 digest of a string. -/
def md5hexS (s : String) : String := md5hex (md5bytes (strBytes s))

/-! ### JSON serialization (as produced by `JSON.stringify`) -/

/-- `JSON.stringify` escaping of one string character. -/
def jsonEscapeChar (c : Char) : List Char :=
  if c = '"' then ['\\', '"']
  else if c = '\\' then ['\\', '\\']
  else if c.toNat = 8 then ['\\', 'b']
  else if c.toNat = 9 then ['\\', 't']
  else if c.toNat = 10 then ['\\', 'n']
  else if c.toNat = 12 then ['\\', 'f']
  else if c.toNat = 13 then ['\\', 'r']
  else if c.toNat < 32 then ['\\', 'u', '0', '0', hexChar (c.toNat / 16 % 16), hexChar (c.toNat % 16)]
  else [c]

/-- `JSON.stringify` of a string value. -/
def jsonString (s : String) : String := ⟨'"' :: (s.data.map jsonEscapeChar).flatten ++ ['"']⟩

/-- `JSON.stringify` of an array of strings. -/
def jsonArr (l : List String) : String :=
  "[" ++ String.intercalate "," (l.map jsonString) ++ "]"

/-! ### The `cache-config` task (gulpfile.js lines 182-204) -/

/-- The cache manifest object assembled by the `cache-config` task. -/
structure CacheManifest where
  cacheId : String
  disabled : Bool
  precache : List String
  precacheFingerprint : String
deriving DecidableEq, Repr

/-- The three fixed entries pushed onto the glob result (line 193):
`files.push('index.html', './',
'bower_components/webcomponentsjs/webcomponents-lite.min.js')`. -/
def fixedPrecacheEntries : List String :=
  ["index.html", "./", "bower_components/webcomponentsjs/webcomponents-lite.min.js"]

/-- The manifest fingerprint (lines 196-198): MD5 over
`JSON.stringify(config.precache)`, hex-encoded. -/
def precacheDigest (l : List String) : String := md5hexS (jsonArr l)

/-- The manifest built from the glob result `files` and the resolved cache
id `pkgName` (`packageJson.name || path.basename(__dirname)`). -/
def buildManifest (files : List String) (pkgName : String) : CacheManifest :=
  let precache := files ++ fixedPrecacheEntries
  { cacheId := pkgName
    disabled := false
    precache := precache
    precacheFingerprint := precacheDigest precache }

/-- The key/serialized-value pairs of the manifest, in the insertion order
`JSON.stringify` preserves: `cacheId`, `disabled`, `precache`,
`precacheFingerprint`. -/
def manifestFields (m : CacheManifest) : List (String × String) :=
  [("cacheId", jsonString m.cacheId),
   ("disabled", if m.disabled then "true" else "false"),
   ("precache", jsonArr m.precache),
   ("precacheFingerprint", jsonString m.precacheFingerprint)]

/-- `JSON.stringify(config)`: the object with exactly the four manifest
fields. -/
def renderManifest (m : CacheManifest) : String :=
  "\x7b" ++
    String.intercalate ","
      ((manifestFields m).map (fun kv => jsonString kv.1 ++ ":" ++ kv.2)) ++
    "\x7d"

/-- `path.join(dir, 'cache-config.json')` with `dir = 'dist'` (lines
183 and 200). -/
def cacheConfigPath : String := "dist/cache-config.json"

/-- Observable outcome of one `cache-config` task invocation: the files it
writes and the value passed to its completion callback. -/
structure CacheConfigOut where
  writes : List (String × String)
  result : Except String Unit
deriving Repr

/-- The `cache-config` task body: on a glob error the error is passed to
the callback and nothing is written; otherwise the three fixed entries are
appended, the manifest is fingerprinted, serialized and written to
`dist/cache-config.json`.  The manifest previously on disk (`priorManifest`)
is never read — the task only overwrites. -/
def cacheConfigTask (_priorManifest : Option String)
    (globResult : Except String (List String)) (pkgName : String) : CacheConfigOut :=
  match globResult with
  | .error e => ⟨[], .error e⟩
  | .ok files =>
    ⟨[(cacheConfigPath, renderManifest (buildManifest files pkgName))], .ok ()⟩

/-! ### Change-detection cache (the style task's skip decision) -/

/-- A file as seen by the change-detection cache: its content digest and
its filesystem modification time. -/
structure FileInfo where
  digest : String
  mtime : Nat
deriving DecidableEq, Repr

/-- Modelled from the spec: change detection for `styleTask` (gulpfile.js
lines 29-39) happens inside the external `gulp-changed` plugin
(`.pipe($.changed(stylesPath, ...))`), whose implementation is not among
the repository sources.  The spec's contract is
`shouldProcess(path, currentDigest)`: return false (skip) iff a prior
cache entry exists for the path with a digest equal to the current content
digest; the comparison consults only the content digest, never the
modification time. -/
def shouldProcess (cache : List (String × String)) (path : String) (f : FileInfo) : Bool :=
  !(cache.lookup path == some f.digest)

/-! ### Revisioning (the `revision` task) -/

/-- A file of the artifact tree as seen by the revisioner, with the
filename split at the extension: `stem`, `ext` and the file content. -/
structure RevFile where
  stem : List Char
  ext : String
  content : String
deriving DecidableEq, Repr

/-- The filename-safe fingerprint token of a file content: a short prefix
of its content digest. -/
def revToken (content : String) : List Char := (md5hexS content).data.take 8

/-- Modelled from the spec: the revisioner (`gulp-tasks/revision`, a
repository file not under `src/`) inserts the content-fingerprint token
before the file extension; a file whose stem already ends with `.` followed
by its own content token is already revisioned and is left unchanged (this
is what the spec's idempotence requirement forces). -/
def reviseName (f : RevFile) : RevFile :=
  if ('.' :: revToken f.content) <:+ f.stem then f
  else { f with stem := f.stem ++ '.' :: revToken f.content }

/-- Apply revisioning to a whole artifact tree. -/
def revisionApply (t : List RevFile) : List RevFile := t.map reviseName

/-- The original-path-to-revisioned-path mapping recorded by one
revisioning run. -/
def revisionMapping (t : List RevFile) : List (RevFile × RevFile) :=
  t.map (fun f => (f, reviseName f))

/-! ### Helpers for the fingerprint pigeonhole argument -/

/-- Value of a byte list read as a base-256 little-endian number. -/
def encodeBytes : List Nat → Nat
  | [] => 0
  | b :: t => b + 256 * encodeBytes t

/-- 35 pairwise distinct precache path strings. -/
def base35 : List String := (List.range 35).map (fun i => "p" ++ toString i)

/-- The reordering of `base35` induced by a permutation of `Fin 35`. -/
def permuteBase (σ : Equiv.Perm (Fin 35)) : List String :=
  (List.finRange 35).map (fun i => base35.getD (σ i).val "")

/-! ## Theorems -/

theorem le_foldr_max (l : List Nat) (x : Nat) (hx : x ∈ l) :
    x ≤ l.foldr Nat.max 0 := by
  induction l with
  | nil => cases hx
  | cons a l ih =>
    simp only [List.foldr_cons]
    rcases List.mem_cons.mp hx with h | h
    · subst h; exact Nat.le_max_left _ _
    · exact le_trans (ih h) (Nat.le_max_right _ _)

theorem dur_le_stepDuration (dur : String → Nat) (s : Step) (t : String)
    (ht : t ∈ s.tasks) : dur t ≤ stepDuration dur s :=
  le_foldr_max _ _ (List.mem_map_of_mem dur ht)

theorem stepStart_barrier (dur : String → Nat) :
    ∀ (p : Pipeline) (i j : Nat), i < j → j ≤ p.length →
      stepStart dur p i + stepDuration dur (stepAt p i) ≤ stepStart dur p j := by
  intro p
  induction p with
  | nil => intro i j hij hj; simp at hj; omega
  | cons s tl ih =>
    intro i j hij hj
    cases i with
    | zero =>
      cases j with
      | zero => omega
      | succ j =>
        simp only [stepStart, stepAt, List.getD_cons_zero]
        omega
    | succ i =>
      cases j with
      | zero => omega
      | succ j =>
        simp only [stepStart, stepAt, List.getD_cons_succ]
        have hlen : j ≤ tl.length := by simpa using hj
        have := ih i j (by omega) hlen
        simp only [stepAt] at this
        omega

theorem runFrom_failed (ok : String → Bool) :
    ∀ (p : Pipeline) (k i : Nat) (c : String), i < p.length →
      firstFailing ok (stepAt p i).tasks = some c →
      (∀ j, j < i → firstFailing ok (stepAt p j).tasks = none) →
      (runFrom ok k p).status = .failed (k + i) c ∧
        ∀ j u, (j, u) ∈ (runFrom ok k p).executed → j ≤ k + i := by
  intro p
  induction p with
  | nil => intro k i c hi; simp at hi
  | cons s tl ih =>
    intro k i c hi hfail hprev
    cases i with
    | zero =>
      simp only [stepAt, List.getD_cons_zero] at hfail
      simp only [runFrom, hfail]
      refine ⟨rfl, ?_⟩
      intro j u hmem
      rcases List.mem_map.mp hmem with ⟨a, _, ha⟩
      have : j = k := by
        have := congrArg Prod.fst ha
        simpa using this.symm
      omega
    | succ i =>
      have h0 : firstFailing ok s.tasks = none := by
        have := hprev 0 (Nat.succ_pos _)
        simpa [stepAt] using this
      simp only [runFrom, h0]
      have hfail' : firstFailing ok (stepAt tl i).tasks = some c := by
        simpa [stepAt] using hfail
      have hprev' : ∀ j, j < i → firstFailing ok (stepAt tl j).tasks = none := by
        intro j hj
        have := hprev (j + 1) (by omega)
        simpa [stepAt] using this
      have hi' : i < tl.length := by simpa using hi
      obtain ⟨hst, hex⟩ := ih (k + 1) i c hi' hfail' hprev'
      constructor
      · rw [show k + (i + 1) = k + 1 + i by omega]
        exact hst
      · intro j u hmem
        rcases List.mem_append.mp hmem with hmem | hmem
        · rcases List.mem_map.mp hmem with ⟨a, _, ha⟩
          have : j = k := by
            have := congrArg Prod.fst ha
            simpa using this.symm
          omega
        · have := hex j u hmem
          omega

theorem runFrom_completed (ok : String → Bool) :
    ∀ (p : Pipeline) (k : Nat), (runFrom ok k p).status = .completed →
      (runFrom ok k p).executed = stepTasksFrom k p := by
  intro p
  induction p with
  | nil => intro k _; rfl
  | cons s tl ih =>
    intro k hc
    cases hf : firstFailing ok s.tasks with
    | some t => simp [runFrom, hf] at hc
    | none =>
      simp only [runFrom, hf] at hc ⊢
      simp only [stepTasksFrom]
      rw [ih (k + 1) hc]

/-- Claim C1: for every pipeline definition executed by the scheduler (in
particular `defaultSeq`, the step list of the `default` task), steps are
visited in declared order: a task `t` scheduled in step `i` completes no
later than the start of step `j` for any later step `j`, so step `i+1`
never begins while any task of step `i` is still running, and only tasks
listed together in one step can have overlapping execution intervals. -/
theorem c1_scheduler_step_order (dur : String → Nat) (p : Pipeline)
    (i j : Nat) (t u : String)
    (hij : i < j) (hj : j ≤ p.length)
    (ht : t ∈ (stepAt p i).tasks) (_hu : u ∈ (stepAt p j).tasks) :
    taskEnd dur p i t ≤ taskStart dur p j := by
  have h1 : dur t ≤ stepDuration dur (stepAt p i) :=
    dur_le_stepDuration dur _ t ht
  have h2 := stepStart_barrier dur p i j hij hj
  simp only [taskEnd, taskStart]
  omega

/-- Witness for C1: in the default step list, the task `copy` of step 0
finishes before step 1 (the `elements` step) begins. -/
theorem c1_scheduler_step_order_witness :
    (0 : Nat) < 1 ∧ 1 ≤ defaultSeq.length ∧
      "copy" ∈ (stepAt defaultSeq 0).tasks ∧
      "elements" ∈ (stepAt defaultSeq 1).tasks ∧
      taskEnd (fun _ => 2) defaultSeq 0 "copy" ≤ taskStart (fun _ => 2) defaultSeq 1 :=
  ⟨by decide, by decide, by decide, by decide,
    c1_scheduler_step_order (fun _ => 2) defaultSeq 0 1 "copy" "elements"
      (by decide) (by decide) (by decide) (by decide)⟩

/-- Claim C2: if the first step containing a failing task is step `i`, with
`c` the first failing task of that step in declaration order, then the run
ends in state `failed i c` (the failure report identifies the task and its
step index) and only tasks of steps `≤ i` ever execute — no task of any
later step runs. -/
theorem c2_failure_halts_pipeline (ok : String → Bool) (p : Pipeline)
    (i : Nat) (c : String)
    (hi : i < p.length)
    (hfail : firstFailing ok (stepAt p i).tasks = some c)
    (hprev : ∀ j, j < i → firstFailing ok (stepAt p j).tasks = none) :
    (runPipeline ok p).status = .failed i c ∧
      ∀ j u, (j, u) ∈ (runPipeline ok p).executed → j ≤ i := by
  have := runFrom_failed ok p 0 i c hi hfail hprev
  simpa [runPipeline] using this

/-- Witness for C2: the pipeline `[A, {B, C}, D]` where exactly `C` fails:
the run reports `failed 1 "C"` and the step-2 task `D` does not execute. -/
theorem c2_failure_halts_pipeline_witness :
    (runPipeline (fun t => !(t == "C"))
        [Step.single "A", Step.par ["B", "C"], Step.single "D"]).status
        = .failed 1 "C" ∧
    ¬ (2, "D") ∈ (runPipeline (fun t => !(t == "C"))
        [Step.single "A", Step.par ["B", "C"], Step.single "D"]).executed :=
  ⟨(c2_failure_halts_pipeline (fun t => !(t == "C"))
      [Step.single "A", Step.par ["B", "C"], Step.single "D"] 1 "C"
      (by decide) (by decide) (by decide)).1,
   fun h => absurd ((c2_failure_halts_pipeline (fun t => !(t == "C"))
      [Step.single "A", Step.par ["B", "C"], Step.single "D"] 1 "C"
      (by decide) (by decide) (by decide)).2 2 "D" h) (by decide)⟩

/-- Claim C3: for every deploy invocation targeting a real environment, the
publish procedure runs exactly when the `pre-deploy` pipeline — the full
default pipeline followed by `fix-path-sw-toolbox` (reference-path fix-up)
and then `revision`, in that order (`preDeployPipeline` is literally
`defaultPipeline ++ [fix-path-sw-toolbox, revision]`) — completed
successfully, and in that case the trace is all pipeline tasks in
scheduling order followed by the publish event; the gulp dependency lists
wiring this are `['pre-deploy']` for all three deploy tasks. -/
theorem c3_predeploy_before_publish (ok : String → Bool) (env : String)
    (_henv : env ∈ deployEnvs) :
    (DeployEvent.publish env ∈ (deployRun ok env).1 ↔
      (runPipeline ok preDeployPipeline).status = .completed) ∧
    ((runPipeline ok preDeployPipeline).status = .completed →
      (deployRun ok env).1
        = (stepTasksFrom 0 preDeployPipeline).map (fun q => .task q.1 q.2)
            ++ [DeployEvent.publish env]) ∧
    gulpDeps "deploy:dev" = ["pre-deploy"] ∧
    gulpDeps "deploy:stag" = ["pre-deploy"] ∧
    gulpDeps "deploy:prod" = ["pre-deploy"] := by
  refine ⟨?_, ?_, rfl, rfl, rfl⟩
  · cases hs : (runPipeline ok preDeployPipeline).status with
    | completed => simp [deployRun, hs]
    | failed i c => simp [deployRun, hs]
  · intro hc
    simp only [runPipeline] at hc
    have hex := runFrom_completed ok preDeployPipeline 0 hc
    simp only [deployRun, runPipeline, hc, hex]

/-- Witness for C3: with every task succeeding, deploying to development
publishes, and does so after the whole `pre-deploy` task list. -/
theorem c3_predeploy_before_publish_witness :
    "development" ∈ deployEnvs ∧
    (DeployEvent.publish "development" ∈ (deployRun (fun _ => true) "development").1 ↔
      (runPipeline (fun _ => true) preDeployPipeline).status = .completed) ∧
    (deployRun (fun _ => true) "development").1
      = (stepTasksFrom 0 preDeployPipeline).map (fun q => .task q.1 q.2)
          ++ [DeployEvent.publish "development"] :=
  ⟨by decide,
   (c3_predeploy_before_publish (fun _ => true) "development" (by decide)).1,
   (c3_predeploy_before_publish (fun _ => true) "development" (by decide)).2.1
     (by decide)⟩

/-- Claim C4: invoking the promote pseudo-environment executes no build
task at all — its gulp dependency list is empty and its trace contains no
task event — it succeeds for every prior published state (in particular
when no production build exists), and it just copies staging's published
state to production. -/
theorem c4_promote_no_build (s : PubState) :
    gulpDeps "deploy:promote" = [] ∧
    (promoteRun s).success = true ∧
    (∀ i n, DeployEvent.task i n ∉ (promoteRun s).trace) ∧
    (promoteRun s).state.production = s.staging ∧
    (promoteRun s).state.staging = s.staging := by
  refine ⟨rfl, rfl, ?_, rfl, rfl⟩
  intro i n hmem
  simp [promoteRun] at hmem

/-- Witness for C4: promoting with no prior production build succeeds and
runs no build task (e.g. not `copy`). -/
theorem c4_promote_no_build_witness :
    (promoteRun ⟨none, some "tree", none⟩).success = true ∧
    DeployEvent.task 0 "copy" ∉ (promoteRun ⟨none, some "tree", none⟩).trace ∧
    (promoteRun ⟨none, some "tree", none⟩).state.production = some "tree" :=
  ⟨(c4_promote_no_build ⟨none, some "tree", none⟩).2.1,
   (c4_promote_no_build ⟨none, some "tree", none⟩).2.2.1 0 "copy",
   (c4_promote_no_build ⟨none, some "tree", none⟩).2.2.2.1⟩

theorem hexChar_mem_of_lt (n : Nat) (h : n < 16) : hexChar n ∈ hexCharList := by
  interval_cases n <;> decide

theorem byteHexChars_mem (b : Nat) (c : Char) (hc : c ∈ byteHexChars b) :
    c ∈ hexCharList := by
  rcases List.mem_cons.mp hc with h | h
  · subst h; exact hexChar_mem_of_lt _ (Nat.mod_lt _ (by norm_num))
  · rcases List.mem_cons.mp h with h | h
    · subst h; exact hexChar_mem_of_lt _ (Nat.mod_lt _ (by norm_num))
    · cases h

theorem md5hex_data_length (bs : List Nat) :
    (md5hex bs).data.length = 2 * bs.length := by
  show ((bs.map byteHexChars).flatten).length = 2 * bs.length
  induction bs with
  | nil => rfl
  | cons b t ih =>
    simp only [List.map_cons, List.flatten_cons, List.length_append, ih, byteHexChars,
      List.length_cons, List.length_nil]
    omega

theorem md5hex_mem_hex (bs : List Nat) (c : Char) (hc : c ∈ (md5hex bs).data) :
    c ∈ hexCharList := by
  have hc' : c ∈ (bs.map byteHexChars).flatten := hc
  rcases List.mem_flatten.mp hc' with ⟨l, hl, hcl⟩
  rcases List.mem_map.mp hl with ⟨b, _, rfl⟩
  exact byteHexChars_mem b c hcl

theorem md5bytes_length (msg : List Nat) : (md5bytes msg).length = 16 := by
  simp [md5bytes, wordBytesLE]

theorem md5bytes_lt (msg : List Nat) : ∀ b ∈ md5bytes msg, b < 256 := by
  have hw : ∀ w : Nat, ∀ x ∈ wordBytesLE w, x < 256 := by
    intro w x hx
    simp only [wordBytesLE, List.mem_cons, List.not_mem_nil, or_false] at hx
    rcases hx with rfl | rfl | rfl | rfl <;> omega
  intro b hb
  simp only [md5bytes, List.mem_append] at hb
  rcases hb with ((hb | hb) | hb) | hb <;> exact hw _ _ hb

/-- Claim C5: for every input file of the style-processing task, the skip
decision depends only on the cached content digest: `shouldProcess` returns
false (skip) iff a prior cache entry for the path holds a digest equal to
the file's current digest; it is invariant under modification-time-only
changes, and a changed content digest always forces reprocessing. -/
theorem c5_shouldProcess_digest_only (cache : List (String × String))
    (path d d2 : String) (m1 m2 : Nat) :
    (shouldProcess cache path ⟨d, m1⟩ = false ↔ cache.lookup path = some d) ∧
    shouldProcess cache path ⟨d, m1⟩ = shouldProcess cache path ⟨d, m2⟩ ∧
    (cache.lookup path = some d → d2 ≠ d → shouldProcess cache path ⟨d2, m1⟩ = true) := by
  refine ⟨?_, rfl, ?_⟩
  · simp [shouldProcess]
  · intro h hne
    simp [shouldProcess, h]
    exact fun hdd => hne hdd.symm

/-- Witness for C5: a cache holding digest `h1` for `app/styles/main.css`
skips the file when its digest is still `h1` (at any modification time) and
reprocesses it when the digest changed to `h2`. -/
theorem c5_shouldProcess_digest_only_witness :
    (shouldProcess [("app/styles/main.css", "h1")] "app/styles/main.css" ⟨"h1", 5⟩ = false ↔
      [("app/styles/main.css", "h1")].lookup "app/styles/main.css" = some "h1") ∧
    shouldProcess [("app/styles/main.css", "h1")] "app/styles/main.css" ⟨"h1", 5⟩
      = shouldProcess [("app/styles/main.css", "h1")] "app/styles/main.css" ⟨"h1", 9⟩ ∧
    shouldProcess [("app/styles/main.css", "h1")] "app/styles/main.css" ⟨"h2", 5⟩ = true :=
  ⟨(c5_shouldProcess_digest_only [("app/styles/main.css", "h1")]
      "app/styles/main.css" "h1" "h2" 5 9).1,
   (c5_shouldProcess_digest_only [("app/styles/main.css", "h1")]
      "app/styles/main.css" "h1" "h2" 5 9).2.1,
   (c5_shouldProcess_digest_only [("app/styles/main.css", "h1")]
      "app/styles/main.css" "h1" "h2" 5 9).2.2 (by decide) (by decide)⟩

/-- Claim C6: on every successful run, the `cache-config` task writes
exactly one file, at the fixed path `dist/cache-config.json`, whose content
is the serialization of a manifest with exactly the fields `cacheId`
(string), `disabled` (bool), `precache` (list of path strings) and
`precacheFingerprint` (a 32-character lowercase-hex digest), built solely
from the current glob result and package name — the output is independent
of whatever manifest was previously on disk (full regeneration, no
merging). -/
theorem c6_manifest_shape (prior1 prior2 : Option String)
    (files : List String) (pkg : String) :
    (cacheConfigTask prior1 (.ok files) pkg).writes
      = [(cacheConfigPath, renderManifest (buildManifest files pkg))] ∧
    cacheConfigPath = "dist/cache-config.json" ∧
    (manifestFields (buildManifest files pkg)).map Prod.fst
      = ["cacheId", "disabled", "precache", "precacheFingerprint"] ∧
    cacheConfigTask prior1 (.ok files) pkg = cacheConfigTask prior2 (.ok files) pkg ∧
    (buildManifest files pkg).precacheFingerprint.data.length = 32 ∧
    ∀ c ∈ (buildManifest files pkg).precacheFingerprint.data, c ∈ hexCharList := by
  refine ⟨rfl, rfl, rfl, rfl, ?_, ?_⟩
  · show (md5hex (md5bytes (strBytes (jsonArr (files ++ fixedPrecacheEntries))))).data.length = 32
    rw [md5hex_data_length, md5bytes_length]
  · intro c hc
    exact md5hex_mem_hex _ c hc

/-- Claim C9: if the glob enumeration of the artifact files fails, the
`cache-config` task propagates the error to its completion callback and
writes nothing — the manifest location is untouched. -/
theorem c9_glob_error_no_write (prior : Option String) (e : String) (pkg : String) :
    (cacheConfigTask prior (.error e) pkg).writes = [] ∧
    (cacheConfigTask prior (.error e) pkg).result = .error e :=
  ⟨rfl, rfl⟩

/-- Claim C10: whatever the glob over `{elements,scripts,styles}` returned
(including nothing), the precache list is the globbed files followed by the
three fixed entries `index.html`, `./` and
`bower_components/webcomponentsjs/webcomponents-lite.min.js`, in that
order, and the `disabled` flag is always false. -/
theorem c10_precache_tail_fixed (files : List String) (pkg : String) :
    (buildManifest files pkg).precache = files ++ fixedPrecacheEntries ∧
    fixedPrecacheEntries
      = ["index.html", "./", "bower_components/webcomponentsjs/webcomponents-lite.min.js"] ∧
    (buildManifest files pkg).disabled = false :=
  ⟨rfl, rfl, rfl⟩

set_option maxRecDepth 100000 in
/-- RFC 1321 test vector: `MD5("abc")`. -/
theorem md5_test_vector_abc :
    md5hexS "abc" = "900150983cd24fb0d6963f7d28e17f72" := by decide

set_option maxRecDepth 100000 in
/-- RFC 1321 test vector: `MD5` of eighty digits (two compression
blocks). -/
theorem md5_test_vector_eighty_digits :
    md5hexS "12345678901234567890123456789012345678901234567890123456789012345678901234567890"
      = "57edf4a22be3c955ac49da2e2107b67a" := by decide

set_option maxRecDepth 100000 in
/-- Witness for C6: a concrete run over one globbed file writes the
manifest at the fixed path, with the four fields, a 32-character digest,
and output independent of the prior manifest (first digest character shown
concretely). -/
theorem c6_manifest_shape_witness :
    (cacheConfigTask none (.ok ["styles/main.css"]) "polymer-starter-kit-plus").writes
      = [(cacheConfigPath,
          renderManifest (buildManifest ["styles/main.css"] "polymer-starter-kit-plus"))] ∧
    cacheConfigPath = "dist/cache-config.json" ∧
    cacheConfigTask none (.ok ["styles/main.css"]) "polymer-starter-kit-plus"
      = cacheConfigTask (some "old manifest") (.ok ["styles/main.css"]) "polymer-starter-kit-plus" ∧
    (buildManifest ["styles/main.css"] "polymer-starter-kit-plus").precacheFingerprint.data.length = 32 ∧
    '5' ∈ hexCharList :=
  ⟨(c6_manifest_shape none (some "old manifest") ["styles/main.css"] "polymer-starter-kit-plus").1,
   (c6_manifest_shape none (some "old manifest") ["styles/main.css"] "polymer-starter-kit-plus").2.1,
   (c6_manifest_shape none (some "old manifest") ["styles/main.css"] "polymer-starter-kit-plus").2.2.2.1,
   (c6_manifest_shape none (some "old manifest") ["styles/main.css"] "polymer-starter-kit-plus").2.2.2.2.1,
   (c6_manifest_shape none (some "old manifest") ["styles/main.css"] "polymer-starter-kit-plus").2.2.2.2.2
     '5' (by decide)⟩

theorem reviseName_fix (f : RevFile)
    (h : ('.' :: revToken f.content) <:+ f.stem) : reviseName f = f := by
  simp [reviseName, h]

theorem reviseName_revised (f : RevFile) :
    ('.' :: revToken (reviseName f).content) <:+ (reviseName f).stem := by
  by_cases h : ('.' :: revToken f.content) <:+ f.stem
  · simp [reviseName, h]
  · simp only [reviseName, h, if_false]
    exact List.suffix_append _ _

theorem reviseName_idem (f : RevFile) : reviseName (reviseName f) = reviseName f :=
  reviseName_fix _ (reviseName_revised f)

/-- Claim C8: revisioning is idempotent on an already-revisioned, unchanged
artifact tree: re-running it leaves the tree unchanged, the recorded
mapping on a revisioned tree maps every file to itself, and every file of a
revisioned tree is a fixed point of renaming — no doubly-revisioned
filename ever appears. -/
theorem c8_revision_idempotent (t : List RevFile) :
    revisionApply (revisionApply t) = revisionApply t ∧
    revisionMapping (revisionApply t) = (revisionApply t).map (fun f => (f, f)) ∧
    ∀ f ∈ revisionApply t, reviseName f = f := by
  refine ⟨?_, ?_, ?_⟩
  · show (t.map reviseName).map reviseName = t.map reviseName
    rw [List.map_map]
    exact List.map_congr_left (fun x _ => reviseName_idem x)
  · show (t.map reviseName).map (fun f => (f, reviseName f))
        = (t.map reviseName).map (fun f => (f, f))
    apply List.map_congr_left
    intro f hf
    rcases List.mem_map.mp hf with ⟨x, _, rfl⟩
    rw [reviseName_idem]
  · intro f hf
    rcases List.mem_map.mp hf with ⟨x, _, rfl⟩
    exact reviseName_idem x

/-- Witness for C8: a one-file tree `main.css`; revising twice equals
revising once, both for the tree and for the revisioned filename itself. -/
theorem c8_revision_idempotent_witness :
    revisionApply (revisionApply [⟨['m', 'a', 'i', 'n'], ".css", "body"⟩])
      = revisionApply [⟨['m', 'a', 'i', 'n'], ".css", "body"⟩] ∧
    reviseName (reviseName (⟨['m', 'a', 'i', 'n'], ".css", "body"⟩ : RevFile))
      = reviseName ⟨['m', 'a', 'i', 'n'], ".css", "body"⟩ :=
  ⟨(c8_revision_idempotent [⟨['m', 'a', 'i', 'n'], ".css", "body"⟩]).1,
   (c8_revision_idempotent [⟨['m', 'a', 'i', 'n'], ".css", "body"⟩]).2.2
      (reviseName ⟨['m', 'a', 'i', 'n'], ".css", "body"⟩)
      (List.mem_map_of_mem reviseName (List.mem_singleton.mpr rfl))⟩

theorem encodeBytes_lt : ∀ (l : List Nat), (∀ b ∈ l, b < 256) →
    encodeBytes l < 256 ^ l.length := by
  intro l
  induction l with
  | nil => intro _; simp [encodeBytes]
  | cons b t ih =>
    intro h
    have hb : b < 256 := h b (List.mem_cons_self _ _)
    have ht : encodeBytes t < 256 ^ t.length :=
      ih (fun x hx => h x (List.mem_cons_of_mem _ hx))
    calc encodeBytes (b :: t) = b + 256 * encodeBytes t := rfl
      _ < 256 * (encodeBytes t + 1) := by omega
      _ ≤ 256 * 256 ^ t.length := Nat.mul_le_mul_left 256 (by omega)
      _ = 256 ^ (b :: t).length := by rw [List.length_cons, pow_succ]; ring

theorem encodeBytes_inj : ∀ (l1 l2 : List Nat), l1.length = l2.length →
    (∀ b ∈ l1, b < 256) → (∀ b ∈ l2, b < 256) →
    encodeBytes l1 = encodeBytes l2 → l1 = l2 := by
  intro l1
  induction l1 with
  | nil =>
    intro l2 hlen _ _ _
    cases l2 with
    | nil => rfl
    | cons c u => simp at hlen
  | cons b t ih =>
    intro l2 hlen h1 h2 heq
    cases l2 with
    | nil => simp at hlen
    | cons c u =>
      have hb : b < 256 := h1 b (List.mem_cons_self _ _)
      have hc : c < 256 := h2 c (List.mem_cons_self _ _)
      have heq' : b + 256 * encodeBytes t = c + 256 * encodeBytes u := heq
      have hbc : b = c := by omega
      have ht : encodeBytes t = encodeBytes u := by omega
      have hlen' : t.length = u.length := by simpa using hlen
      have := ih u hlen' (fun x hx => h1 x (List.mem_cons_of_mem _ hx))
        (fun x hx => h2 x (List.mem_cons_of_mem _ hx)) ht
      rw [hbc, this]

theorem base35_nodup : base35.Nodup := by decide

theorem base35_length : base35.length = 35 := by decide

theorem map_eq_map_forall {α β : Type _} (f g : α → β) :
    ∀ (l : List α), l.map f = l.map g → ∀ a ∈ l, f a = g a := by
  intro l
  induction l with
  | nil => intro _ a ha; cases ha
  | cons x t ih =>
    intro h a ha
    simp only [List.map_cons, List.cons.injEq] at h
    rcases List.mem_cons.mp ha with rfl | ha
    · exact h.1
    · exact ih h.2 a ha

theorem permuteBase_inj {σ τ : Equiv.Perm (Fin 35)}
    (h : permuteBase σ = permuteBase τ) : σ = τ := by
  apply Equiv.ext
  intro i
  have hi := map_eq_map_forall _ _ _ h i (List.mem_finRange i)
  have hσ : (σ i).val < base35.length := by rw [base35_length]; exact (σ i).isLt
  have hτ : (τ i).val < base35.length := by rw [base35_length]; exact (τ i).isLt
  rw [List.getD_eq_getElem _ _ hσ, List.getD_eq_getElem _ _ hτ] at hi
  have := (List.Nodup.getElem_inj_iff base35_nodup).mp hi
  exact Fin.ext this

theorem permuteBase_perm (σ : Equiv.Perm (Fin 35)) :
    (permuteBase σ).Perm base35 := by
  have h1 : permuteBase σ
      = ((List.finRange 35).map (fun i => σ i)).map
          (fun i : Fin 35 => base35.getD i.val "") := by
    rw [List.map_map]
    rfl
  have h2 : ((List.finRange 35).map (fun i => σ i)).Perm (List.finRange 35) := by
    apply List.perm_of_nodup_nodup_toFinset_eq
    · exact (List.nodup_finRange 35).map σ.injective
    · exact List.nodup_finRange 35
    · apply Finset.ext
      intro a
      simp only [List.mem_toFinset, List.mem_map, List.mem_finRange, true_and, iff_true]
      exact ⟨σ.symm a, σ.apply_symm_apply a⟩
  have h3 := h2.map (fun i : Fin 35 => base35.getD i.val "")
  rw [h1]
  refine h3.trans ?_
  have h4 : (List.finRange 35).map (fun i : Fin 35 => base35.getD i.val "") = base35 := by
    decide
  rw [h4]

/-- Claim C7 (amended): the manifest fingerprint function — MD5 over the
`JSON.stringify` serialization of the precache path list — is
deterministic: identical ordered input sequences always yield identical
digests (hence two builds over an unchanged source tree produce equal
manifest fingerprints), and every digest is a 32-character lowercase-hex
string.  The original claim's further assertion that every nontrivial
reordering yields a different digest is false (see the counterexample): a
128-bit digest cannot separate all orderings. -/
theorem c7_fingerprint_deterministic (l1 l2 : List String) (h : l1 = l2) :
    precacheDigest l1 = precacheDigest l2 ∧
    (precacheDigest l1).data.length = 32 ∧
    ∀ c ∈ (precacheDigest l1).data, c ∈ hexCharList := by
  subst h
  refine ⟨rfl, ?_, ?_⟩
  · show (md5hex (md5bytes (strBytes (jsonArr l1)))).data.length = 32
    rw [md5hex_data_length, md5bytes_length]
  · intro c hc
    exact md5hex_mem_hex _ c hc

/-- Witness for C7: the fingerprint of a concrete precache list equals
itself and has 32 characters. -/
theorem c7_fingerprint_deterministic_witness :
    precacheDigest ["styles/main.css"] = precacheDigest ["styles/main.css"] ∧
    (precacheDigest ["styles/main.css"]).data.length = 32 :=
  ⟨(c7_fingerprint_deterministic ["styles/main.css"] ["styles/main.css"] rfl).1,
   (c7_fingerprint_deterministic ["styles/main.css"] ["styles/main.css"] rfl).2.1⟩

set_option maxRecDepth 10000 in
/-- Counterexample for C7 as stated: it is not true that every nontrivial
reordering of a precache list changes the MD5 fingerprint.  There are `35!`
orderings of 35 distinct path strings but only `2^128 = 256^16` possible
MD5 digests, and `35! > 2^128`, so by pigeonhole two distinct orderings of
the 35 concrete paths `base35` (which are permutations of one another)
share the same fingerprint. -/
theorem c7_counterexample :
    ¬ ∀ (l1 l2 : List String), l1.Perm l2 → l1 ≠ l2 →
        precacheDigest l1 ≠ precacheDigest l2 := by
  intro hclaim
  have hcard : (Finset.range (256 ^ 16)).card
      < (Finset.univ : Finset (Equiv.Perm (Fin 35))).card := by
    rw [Finset.card_range, Finset.card_univ, Fintype.card_perm, Fintype.card_fin]
    decide
  have hmap : ∀ σ ∈ (Finset.univ : Finset (Equiv.Perm (Fin 35))),
      encodeBytes (md5bytes (strBytes (jsonArr (permuteBase σ)))) ∈ Finset.range (256 ^ 16) := by
    intro σ _
    apply Finset.mem_range.mpr
    have h1 := encodeBytes_lt _ (md5bytes_lt (strBytes (jsonArr (permuteBase σ))))
    rwa [md5bytes_length] at h1
  obtain ⟨σ, -, τ, -, hne, heq⟩ :=
    Finset.exists_ne_map_eq_of_card_lt_of_maps_to hcard hmap
  have hb : md5bytes (strBytes (jsonArr (permuteBase σ)))
      = md5bytes (strBytes (jsonArr (permuteBase τ))) :=
    encodeBytes_inj _ _ (by rw [md5bytes_length, md5bytes_length])
      (md5bytes_lt _) (md5bytes_lt _) heq
  have hdig : precacheDigest (permuteBase σ) = precacheDigest (permuteBase τ) :=
    congrArg md5hex hb
  have hlne : permuteBase σ ≠ permuteBase τ := fun hEq => hne (permuteBase_inj hEq)
  have hperm : (permuteBase σ).Perm (permuteBase τ) :=
    (permuteBase_perm σ).trans (permuteBase_perm τ).symm
  exact hclaim _ _ hperm hlne hdig

end PSK
